import Mathlib

/-!
Shallow embedding of the MCP23017 driver (`src/lib.rs` of mcp23017-rpi-lib).

The i2c transport (rppal's `I2c`) is modelled as an oracle `Bus` answering
single-byte register reads and writes; an answer may depend on the full history
of bus operations (the trace), which models stateful hardware.  Every device
operation threads the trace of attempted bus operations explicitly and returns
`Except Error α × List Event`.  Machine integers are `Nat`: bytes are kept
below 256 (`busRead` reduces the oracle's answer mod 256, mirroring the `u8`
wire type), 16-bit results are reduced mod 65536 where the source uses `u16`.
-/

namespace MCP

/-- Register addresses, from the constants at the top of `lib.rs`. -/
def IODIRA : Nat := 0x00

def IODIRB : Nat := 0x01

def GPINTENA : Nat := 0x04

def GPINTENB : Nat := 0x05

def DEFVALA : Nat := 0x06

def DEFVALB : Nat := 0x07

def INTCONA : Nat := 0x08

def INTCONB : Nat := 0x09

def IOCON : Nat := 0x0A

def GPPUA : Nat := 0x0C

def GPPUB : Nat := 0x0D

def INTFA : Nat := 0x0E

def INTFB : Nat := 0x0F

def INTCAPA : Nat := 0x10

def INTCAPB : Nat := 0x11

def GPIOA : Nat := 0x12

def GPIOB : Nat := 0x13

def OLATA : Nat := 0x14

def OLATB : Nat := 0x15

/-- The source constant NUM_GPIO (`= 16`, the pin count). -/
def NUM_GPIO_PINS : Nat := 16

/-- Pin mode (`enum Mode`). -/
inductive Mode where
  | Input
  | Output
deriving DecidableEq

/-- `impl Into<bool> for Mode`. -/
def Mode.toBool : Mode → Bool
  | Mode.Input => true
  | Mode.Output => false

/-- `impl From<bool> for Mode`. -/
def Mode.fromBool (s : Bool) : Mode :=
  if s then Mode.Input else Mode.Output

/-- Pin state (`enum State`). -/
inductive State where
  | High
  | Low
deriving DecidableEq

/-- `impl Into<bool> for State`. -/
def State.toBool : State → Bool
  | State.High => true
  | State.Low => false

/-- `impl From<bool> for State`. -/
def State.fromBool (s : Bool) : State :=
  if s then State.High else State.Low

/-- Interrupt feature state (`enum Feature`). -/
inductive Feature where
  | On
  | Off
deriving DecidableEq

/-- `impl Into<bool> for Feature`. -/
def Feature.toBool : Feature → Bool
  | Feature.On => true
  | Feature.Off => false

/-- `impl From<bool> for Feature`. -/
def Feature.fromBool (s : Bool) : Feature :=
  if s then Feature.On else Feature.Off

/-- GPIO bank (`enum Bank`). -/
inductive Bank where
  | A
  | B
deriving DecidableEq

/-- GPIO pin (`struct Pin`): `pin` is the bit index within the bank, `orig`
the logical 0-15 index, `shift` the bank position (0 or 8). -/
structure Pin where
  pin : Nat
  orig : Nat
  shift : Nat
  bank : Bank
deriving DecidableEq

/-- `Pin::new`: pin between 0-15, 0 to 7 is bank A, 8 to 15 is bank B. -/
def Pin.new (pin : Nat) : Option Pin :=
  if pin ≥ NUM_GPIO_PINS then
    none
  else if pin < 8 then
    some ⟨pin, pin, 0, Bank.A⟩
  else
    some ⟨pin - 8, pin, 8, Bank.B⟩

/-- `Pin::mode`: `Mode::from(direction & (1 << self.orig) == 0)`. -/
def Pin.mode (self : Pin) (direction : Nat) : Mode :=
  Mode.fromBool ((direction &&& (1 <<< self.orig)) == 0)

/-- `enum Error`; the rppal i2c error payload is reduced to a numeric code. -/
inductive Error where
  | I2C (e : Nat)
  | WrongMode (p : Pin)
  | InterruptsForcedClear
deriving DecidableEq

deriving instance DecidableEq for Except

/-- One attempted transport operation: the register, (for writes) the byte
sent, and the transport's answer.  Failed attempts are recorded too, so the
trace counts every bus call that was issued. -/
inductive Event where
  | readE (reg : Nat) (result : Except Nat Nat)
  | writeE (reg : Nat) (val : Nat) (result : Except Nat Unit)
deriving DecidableEq

/-- The byte-oriented bus transport (`smbus_read_byte`/`smbus_write_byte`),
as an oracle whose answers may depend on the history of operations. -/
structure Bus where
  readByte : List Event → Nat → Except Nat Nat
  writeByte : List Event → Nat → Nat → Except Nat Unit

/-- `self.i2c.smbus_read_byte(reg)`: ask the oracle, record the attempt,
keep the answer as a byte. -/
def busRead (bus : Bus) (tr : List Event) (reg : Nat) : Except Nat Nat × List Event :=
  match bus.readByte tr reg with
  | Except.ok v => (Except.ok (v % 256), tr ++ [Event.readE reg (Except.ok (v % 256))])
  | Except.error e => (Except.error e, tr ++ [Event.readE reg (Except.error e)])

/-- `self.i2c.smbus_write_byte(reg, val)`: ask the oracle, record the attempt. -/
def busWrite (bus : Bus) (tr : List Event) (reg val : Nat) : Except Nat Unit × List Event :=
  match bus.writeByte tr reg val with
  | Except.ok _ => (Except.ok (), tr ++ [Event.writeE reg val (Except.ok ())])
  | Except.error e => (Except.error e, tr ++ [Event.writeE reg val (Except.error e)])

/-- Number of read attempts in a trace. -/
def countReads : List Event → Nat
  | [] => 0
  | Event.readE _ _ :: rest => countReads rest + 1
  | Event.writeE _ _ _ :: rest => countReads rest

/-- Number of write attempts in a trace. -/
def countWrites : List Event → Nat
  | [] => 0
  | Event.readE _ _ :: rest => countWrites rest
  | Event.writeE _ _ _ :: rest => countWrites rest + 1

/-- Device state (`struct MCP23017` minus the transport handle, which is the
`Bus` argument of every operation). -/
structure MCP23017 where
  direction : Nat
  mirrored : Feature
deriving DecidableEq

/-- `MCP23017::change_bit`: change a specific bit in a byte.  `u8` arithmetic:
`bitmap | (1 << pin.pin)` resp. `bitmap & !(1 << pin.pin)`, with the shifted
bit and the result reduced to 8 bits. -/
def MCP23017.change_bit (bitmap : Nat) (pin : Pin) (value : Bool) : Nat :=
  if value then
    (bitmap ||| (1 <<< pin.pin)) % 256
  else
    bitmap &&& (255 ^^^ ((1 <<< pin.pin) % 256))

/-- `MCP23017::read_and_change_pin`: read-modify-write of one bit of one
register, skipping the read when the current value is already known. -/
def MCP23017.read_and_change_pin (bus : Bus) (tr : List Event) (register : Nat)
    (pin : Pin) (value : Bool) (cur_value : Option Nat) :
    Except Error Nat × List Event :=
  match cur_value with
  | some cur_value =>
    let new_value := MCP23017.change_bit cur_value pin value
    match busWrite bus tr register new_value with
    | (Except.error e, tr1) => (Except.error (Error.I2C e), tr1)
    | (Except.ok _, tr1) => (Except.ok new_value, tr1)
  | none =>
    -- if we don't know what the current register's full value is, get it first
    match busRead bus tr register with
    | (Except.error e, tr1) => (Except.error (Error.I2C e), tr1)
    | (Except.ok cur_value, tr1) =>
      let new_value := MCP23017.change_bit cur_value pin value
      match busWrite bus tr1 register new_value with
      | (Except.error e, tr2) => (Except.error (Error.I2C e), tr2)
      | (Except.ok _, tr2) => (Except.ok new_value, tr2)

/-- `MCP23017::pull_up`.  NOTE: the source's `match pin.bank` uses `GPPUA`
in BOTH arms (`lib.rs` lines 349-352); translated exactly as written. -/
def MCP23017.pull_up (bus : Bus) (tr : List Event) (pin : Pin) (value : State) :
    Except Error Nat × List Event :=
  match (match pin.bank with
         | Bank.A => MCP23017.read_and_change_pin bus tr GPPUA pin value.toBool none
         | Bank.B => MCP23017.read_and_change_pin bus tr GPPUA pin value.toBool none) with
  | (Except.error e, tr1) => (Except.error e, tr1)
  | (Except.ok pull, tr1) => (Except.ok ((pull <<< pin.shift) % 65536), tr1)

/-- `MCP23017::output`: guard on the cached direction, then read OLAT
best-effort (`.ok()` turns a failed read into `None`) and read-modify-write
the bank's GPIO register. -/
def MCP23017.output (bus : Bus) (self : MCP23017) (tr : List Event)
    (pin : Pin) (value : State) : Except Error Nat × List Event :=
  if pin.mode self.direction = Mode.Output then
    (Except.error (Error.WrongMode pin), tr)
  else
    match pin.bank with
    | Bank.A =>
      let pre := busRead bus tr OLATA
      MCP23017.read_and_change_pin bus pre.2 GPIOA pin value.toBool pre.1.toOption
    | Bank.B =>
      let pre := busRead bus tr OLATB
      MCP23017.read_and_change_pin bus pre.2 GPIOB pin value.toBool pre.1.toOption

/-- `MCP23017::read_interrupt_register`.  The source derives the bit index as
`(intf as f32).log2() as u8`; for every byte in 1..=255 that truncated `f32`
logarithm equals `Nat.log2`, which is used here. -/
def MCP23017.read_interrupt_register (bus : Bus) (tr : List Event) (port : Bank) :
    Except Error (Option (Pin × State)) × List Event :=
  match port with
  | Bank.A =>
    match busRead bus tr INTFA with
    | (Except.error e, tr1) => (Except.error (Error.I2C e), tr1)
    | (Except.ok interrupted_a, tr1) =>
      if interrupted_a ≠ 0 then
        let pin := Pin.new (Nat.log2 interrupted_a)
        match busRead bus tr1 INTCAPA with
        | (Except.error e, tr2) => (Except.error (Error.I2C e), tr2)
        | (Except.ok value_register, tr2) =>
          (Except.ok (pin.map fun pin =>
            (pin, State.fromBool (!((value_register &&& (1 <<< pin.pin)) == 0)))), tr2)
      else
        (Except.ok none, tr1)
  | Bank.B =>
    match busRead bus tr INTFB with
    | (Except.error e, tr1) => (Except.error (Error.I2C e), tr1)
    | (Except.ok interrupted_b, tr1) =>
      if interrupted_b ≠ 0 then
        let pin := Pin.new (Nat.log2 interrupted_b)
        match busRead bus tr1 INTCAPB with
        | (Except.error e, tr2) => (Except.error (Error.I2C e), tr2)
        | (Except.ok value_register, tr2) =>
          (Except.ok (pin.map fun pin =>
            (pin, State.fromBool (!((value_register &&& (1 <<< pin.pin)) == 0)))), tr2)
      else
        (Except.ok none, tr1)

/-- `MCP23017::read_interrupt`: with mirroring on, check bank A first and fall
back to bank B, swallowing a bank-B error (`unwrap_or(None)`); with mirroring
off, check only the requested port. -/
def MCP23017.read_interrupt (bus : Bus) (self : MCP23017) (tr : List Event)
    (port : Bank) : Except Error (Option (Pin × State)) × List Event :=
  match self.mirrored with
  | Feature.On =>
    match MCP23017.read_interrupt_register bus tr Bank.A with
    | (Except.error e, tr1) => (Except.error e, tr1)
    | (Except.ok (some pv), tr1) => (Except.ok (some pv), tr1)
    | (Except.ok none, tr1) =>
      match MCP23017.read_interrupt_register bus tr1 Bank.B with
      | (Except.ok st, tr2) => (Except.ok st, tr2)
      | (Except.error _, tr2) => (Except.ok none, tr2)
  | Feature.Off => MCP23017.read_interrupt_register bus tr port

/-- The retry phase of `MCP23017::clear_interrupts`: the source's loop is
`for _ in [0..3]`, which iterates over a ONE-element array containing the
single range value `0..3`, so the loop body runs exactly once; translated as
executed.  The `sleep(500ms)` has no bus-visible effect and is omitted.
After the single iteration the forced clear (GPIOA/GPIOB reads) runs. -/
def MCP23017.clear_interrupts_retry (bus : Bus) (tr : List Event) :
    Except Error Unit × List Event :=
  match busRead bus tr INTFA with
  | (Except.error e, tr1) => (Except.error (Error.I2C e), tr1)
  | (Except.ok a, tr1) =>
    if a = 0 then (Except.ok (), tr1)
    else
      match busRead bus tr1 INTFB with
      | (Except.error e, tr2) => (Except.error (Error.I2C e), tr2)
      | (Except.ok b, tr2) =>
        if b = 0 then (Except.ok (), tr2)
        else
          -- sleep(500ms), loop ends; then: force reset
          match busRead bus tr2 GPIOA with
          | (Except.error e, tr3) => (Except.error (Error.I2C e), tr3)
          | (Except.ok _, tr3) =>
            match busRead bus tr3 GPIOB with
            | (Except.error e, tr4) => (Except.error (Error.I2C e), tr4)
            | (Except.ok _, tr4) => (Except.error Error.InterruptsForcedClear, tr4)

/-- `MCP23017::clear_interrupts`: entry condition
`read(INTFA)? > 0 || read(INTFB)? > 0` (short-circuiting), then the retry
phase. -/
def MCP23017.clear_interrupts (bus : Bus) (tr : List Event) :
    Except Error Unit × List Event :=
  match busRead bus tr INTFA with
  | (Except.error e, tr1) => (Except.error (Error.I2C e), tr1)
  | (Except.ok a0, tr1) =>
    if a0 > 0 then MCP23017.clear_interrupts_retry bus tr1
    else
      match busRead bus tr1 INTFB with
      | (Except.error e, tr2) => (Except.error (Error.I2C e), tr2)
      | (Except.ok b0, tr2) =>
        if b0 > 0 then MCP23017.clear_interrupts_retry bus tr2
        else (Except.ok (), tr2)

/-- Run a sequence of fixed register writes, stopping at the first failure
(the source's chain of `?`-propagated `smbus_write_byte` calls). -/
def writeSeq (bus : Bus) : List Event → List (Nat × Nat) → Except Error Unit × List Event
  | tr, [] => (Except.ok (), tr)
  | tr, rv :: rest =>
    match busWrite bus tr rv.1 rv.2 with
    | (Except.error e, tr1) => (Except.error (Error.I2C e), tr1)
    | (Except.ok _, tr1) => writeSeq bus tr1 rest

/-- The 13 fixed (register, value) writes of `MCP23017::reset`, in source
order (`lib.rs` lines 524-543). -/
def resetWritePairs : List (Nat × Nat) :=
  [(IODIRA, 0xFF), (IODIRB, 0xFF),
   (GPIOA, 0x00), (GPIOB, 0x00),
   (GPPUA, 0x00), (GPPUB, 0x00),
   (IOCON, 0x00),
   (GPINTENA, 0x00), (GPINTENB, 0x00),
   (INTCONA, 0x00), (INTCONB, 0x00),
   (DEFVALA, 0x00), (DEFVALB, 0x00)]

/-- `MCP23017::reset`: the fixed writes, then reads of GPIOA and GPIOB to
clear any interrupts. -/
def MCP23017.reset (bus : Bus) (tr : List Event) : Except Error Unit × List Event :=
  match writeSeq bus tr resetWritePairs with
  | (Except.error e, tr1) => (Except.error e, tr1)
  | (Except.ok _, tr1) =>
    match busRead bus tr1 GPIOA with
    | (Except.error e, tr2) => (Except.error (Error.I2C e), tr2)
    | (Except.ok _, tr2) =>
      match busRead bus tr2 GPIOB with
      | (Except.error e, tr3) => (Except.error (Error.I2C e), tr3)
      | (Except.ok _, tr3) => (Except.ok (), tr3)

/-- `MCP23017::new` (transport opening and addressing lie outside the register
model): fill the direction cache from IODIRA (low byte) and IODIRB (high
byte), set `mirrored` off, then run `reset`. -/
def MCP23017.new (bus : Bus) (tr : List Event) : Except Error MCP23017 × List Event :=
  match busRead bus tr IODIRA with
  | (Except.error e, tr1) => (Except.error (Error.I2C e), tr1)
  | (Except.ok a, tr1) =>
    match busRead bus tr1 IODIRB with
    | (Except.error e, tr2) => (Except.error (Error.I2C e), tr2)
    | (Except.ok b, tr2) =>
      let mcp23017 : MCP23017 := ⟨a ||| (b <<< 8), Feature.Off⟩
      match MCP23017.reset bus tr2 with
      | (Except.error e, tr3) => (Except.error e, tr3)
      | (Except.ok _, tr3) => (Except.ok mcp23017, tr3)

/-- The INTF register of a bank. -/
def intfReg : Bank → Nat
  | Bank.A => INTFA
  | Bank.B => INTFB

/-- The INTCAP register of a bank. -/
def intcapReg : Bank → Nat
  | Bank.A => INTCAPA
  | Bank.B => INTCAPB

/-- The GPIO register of a bank. -/
def gpioReg : Bank → Nat
  | Bank.A => GPIOA
  | Bank.B => GPIOB

/-- The OLAT register of a bank. -/
def olatReg : Bank → Nat
  | Bank.A => OLATA
  | Bank.B => OLATB

/-- The trace left by a successfully executed sequence of fixed writes. -/
def okWriteEvents (l : List (Nat × Nat)) : List Event :=
  l.map fun rv => Event.writeE rv.1 rv.2 (Except.ok ())

/-- A bus whose reads always answer 0 and whose writes always succeed. -/
def busZero : Bus := ⟨fun _ _ => Except.ok 0, fun _ _ _ => Except.ok ()⟩

/-- A bus on which both interrupt-flag registers are stuck at 1 and every
other read answers 0; writes succeed. -/
def busStuck : Bus :=
  ⟨fun _ reg =>
    if reg = INTFA then Except.ok 1
    else if reg = INTFB then Except.ok 1
    else Except.ok 0,
   fun _ _ _ => Except.ok ()⟩

/-- A bus with INTFA = 0x04 and INTCAPA = 0x04 (the spec's interrupt
scenario); every other read answers 0, writes succeed. -/
def busIntf4 : Bus :=
  ⟨fun _ reg =>
    if reg = INTFA then Except.ok 4
    else if reg = INTCAPA then Except.ok 4
    else Except.ok 0,
   fun _ _ _ => Except.ok ()⟩

/-- A bus with INTFB = 0x80 and INTCAPB = 0x80; every other read answers 0,
writes succeed. -/
def busIntfB128 : Bus :=
  ⟨fun _ reg =>
    if reg = INTFB then Except.ok 128
    else if reg = INTCAPB then Except.ok 128
    else Except.ok 0,
   fun _ _ _ => Except.ok ()⟩

/-- A bus on which reading INTFB fails with error code 9; every other read
answers 0, writes succeed. -/
def busBerr : Bus :=
  ⟨fun _ reg => if reg = INTFB then Except.error 9 else Except.ok 0,
   fun _ _ _ => Except.ok ()⟩

/-- Logical pin 0: bank A, bit 0. -/
def pin0 : Pin := ⟨0, 0, 0, Bank.A⟩

/-- Logical pin 8: bank B, bit 0, shift 8 (the value of `Pin::new(8)`). -/
def pin8 : Pin := ⟨0, 8, 8, Bank.B⟩

/-- A device whose cached direction word is 0, mirroring off. -/
def dev0 : MCP23017 := ⟨0, Feature.Off⟩

/-- A device with mirroring on. -/
def devMir : MCP23017 := ⟨0, Feature.On⟩

/-- A device whose cached direction word is 0xFFFF (all bits set). -/
def devFFFF : MCP23017 := ⟨0xFFFF, Feature.Off⟩

/-!
Helper lemmas: byte-level facts about `change_bit`, the transport wrappers,
`Nat.log2`, and the write sequencer.  These are shared by the claim theorems
below.
-/

/-- Bit `j` of the byte 255 is set exactly for `j < 8`. -/
theorem testBit_255 (j : Nat) : Nat.testBit 255 j = decide (j < 8) := by
  rw [show (255 : Nat) = 2 ^ 8 - 1 by norm_num, Nat.testBit_two_pow_sub_one]

/-- `change_bit` keeps the result a byte. -/
theorem change_bit_lt {c : Nat} (p : Pin) (v : Bool) (hc : c < 256) :
    MCP23017.change_bit c p v < 256 := by
  unfold MCP23017.change_bit
  cases v with
  | true => exact Nat.mod_lt _ (by norm_num)
  | false => exact Nat.lt_of_le_of_lt Nat.and_le_left hc

/-- `change_bit` sets the selected bit to the requested value. -/
theorem change_bit_testBit_self {c : Nat} {p : Pin} {v : Bool} (hc : c < 256)
    (hp : p.pin < 8) : (MCP23017.change_bit c p v).testBit p.pin = v := by
  have hpow : (1 <<< p.pin) = 2 ^ p.pin := Nat.one_shiftLeft p.pin
  have hc8 : c < 2 ^ 8 := Nat.lt_of_lt_of_le hc (by norm_num)
  have hp8 : 2 ^ p.pin < 2 ^ 8 := Nat.pow_lt_pow_right (by norm_num) hp
  have hor : c ||| 2 ^ p.pin < 256 :=
    Nat.lt_of_lt_of_le (Nat.or_lt_two_pow hc8 hp8) (by norm_num)
  unfold MCP23017.change_bit
  cases v with
  | true =>
    rw [if_pos rfl, hpow, Nat.mod_eq_of_lt hor]
    simp [Nat.testBit_or, Nat.testBit_two_pow_self]
  | false =>
    rw [if_neg (by simp), hpow,
      Nat.mod_eq_of_lt (Nat.lt_of_lt_of_le hp8 (by norm_num))]
    simp [Nat.testBit_and, Nat.testBit_xor, Nat.testBit_two_pow_self, testBit_255, hp]

/-- `change_bit` leaves every other bit unchanged. -/
theorem change_bit_testBit_other {c : Nat} {p : Pin} {v : Bool} {j : Nat}
    (hc : c < 256) (hp : p.pin < 8) (hj : j ≠ p.pin) :
    (MCP23017.change_bit c p v).testBit j = c.testBit j := by
  have hpow : (1 <<< p.pin) = 2 ^ p.pin := Nat.one_shiftLeft p.pin
  have hc8 : c < 2 ^ 8 := Nat.lt_of_lt_of_le hc (by norm_num)
  have hp8 : 2 ^ p.pin < 2 ^ 8 := Nat.pow_lt_pow_right (by norm_num) hp
  have hor : c ||| 2 ^ p.pin < 256 :=
    Nat.lt_of_lt_of_le (Nat.or_lt_two_pow hc8 hp8) (by norm_num)
  unfold MCP23017.change_bit
  cases v with
  | true =>
    rw [if_pos rfl, hpow, Nat.mod_eq_of_lt hor]
    simp [Nat.testBit_or, Nat.testBit_two_pow_of_ne (Ne.symm hj)]
  | false =>
    rw [if_neg (by simp), hpow,
      Nat.mod_eq_of_lt (Nat.lt_of_lt_of_le hp8 (by norm_num))]
    by_cases hj8 : j < 8
    · simp [Nat.testBit_and, Nat.testBit_xor, Nat.testBit_two_pow_of_ne (Ne.symm hj),
        testBit_255, hj8]
    · have hcj : c.testBit j = false :=
        Nat.testBit_lt_two_pow
          (Nat.lt_of_lt_of_le hc8 (Nat.pow_le_pow_right (by norm_num) (by omega)))
      simp [Nat.testBit_and, Nat.testBit_xor, testBit_255, hj8, hcj]

/-- A bus read either yields a byte together with its trace entry, or fails
with its trace entry; either way exactly one attempt is recorded. -/
theorem busRead_cases (bus : Bus) (tr : List Event) (reg : Nat) :
    (∃ v, v < 256 ∧ busRead bus tr reg = (Except.ok v, tr ++ [Event.readE reg (Except.ok v)]))
    ∨ (∃ e, busRead bus tr reg = (Except.error e, tr ++ [Event.readE reg (Except.error e)])) := by
  unfold busRead
  rcases bus.readByte tr reg with e | v
  · exact Or.inr ⟨e, rfl⟩
  · exact Or.inl ⟨v % 256, Nat.mod_lt _ (by norm_num), rfl⟩

/-- A bus write either succeeds or fails; either way exactly one attempt is
recorded. -/
theorem busWrite_cases (bus : Bus) (tr : List Event) (reg val : Nat) :
    busWrite bus tr reg val = (Except.ok (), tr ++ [Event.writeE reg val (Except.ok ())])
    ∨ (∃ e, busWrite bus tr reg val
        = (Except.error e, tr ++ [Event.writeE reg val (Except.error e)])) := by
  unfold busWrite
  rcases bus.writeByte tr reg val with e | u
  · exact Or.inr ⟨e, rfl⟩
  · exact Or.inl rfl

/-- A successful bus read always yields a byte. -/
theorem busRead_ok_lt {bus : Bus} {tr : List Event} {reg v : Nat} {tr1 : List Event}
    (h : busRead bus tr reg = (Except.ok v, tr1)) : v < 256 := by
  rcases busRead_cases bus tr reg with ⟨w, hw, heq⟩ | ⟨e, heq⟩
  · rw [heq] at h
    have : w = v := by simpa using congrArg (fun x => x.1) h
    omega
  · rw [heq] at h
    simpa using congrArg (fun x => x.1) h

/-- `Nat.log2` of a byte is below 8. -/
theorem log2_lt_8 {v : Nat} (h : v < 256) : Nat.log2 v < 8 := by
  rcases Nat.eq_zero_or_pos v with h0 | h0
  · subst h0; simp [Nat.log2]
  · rw [Nat.log2_eq_log_two]
    exact Nat.log_lt_of_lt_pow (by omega) (by norm_num; omega)

/-- For non-zero `v`, bit `Nat.log2 v` of `v` is set. -/
theorem log2_testBit_self {v : Nat} (h : v ≠ 0) : v.testBit (Nat.log2 v) = true := by
  rw [Nat.log2_eq_log_two]
  have h1 : 2 ^ Nat.log 2 v ≤ v := Nat.pow_log_le_self 2 h
  have h2 : v < 2 ^ (Nat.log 2 v + 1) := Nat.lt_pow_succ_log_self (by norm_num) v
  rw [Nat.testBit_to_div_mod]
  have hdiv : v / 2 ^ Nat.log 2 v = 1 := by
    apply Nat.div_eq_of_lt_le
    · simpa using h1
    · simpa [Nat.pow_succ, Nat.mul_comm] using h2
  simp [hdiv]

/-- Every bit of `v` above `Nat.log2 v` is clear: `Nat.log2` names the
highest set bit. -/
theorem log2_testBit_gt {v j : Nat} (hj : Nat.log2 v < j) : v.testBit j = false := by
  rcases Nat.eq_zero_or_pos v with h0 | h0
  · subst h0; simp
  · rw [Nat.log2_eq_log_two] at hj
    have h2 : v < 2 ^ (Nat.log 2 v + 1) := Nat.lt_pow_succ_log_self (by norm_num) v
    exact Nat.testBit_lt_two_pow
      (Nat.lt_of_lt_of_le h2 (Nat.pow_le_pow_right (by norm_num) (by omega)))

/-- Closed evaluation of `Nat.log2` used by concrete witnesses. -/
theorem log2_four : Nat.log2 4 = 2 := by simp [Nat.log2]

/-- Closed evaluation of `Nat.log2` used by concrete witnesses. -/
theorem log2_128 : Nat.log2 128 = 7 := by simp [Nat.log2]

/-- `Pin::new` on an index below 8 gives the bank-A pin with that bit. -/
theorem pin_new_small {n : Nat} (h : n < 8) : Pin.new n = some ⟨n, n, 0, Bank.A⟩ := by
  unfold Pin.new
  rw [if_neg (by simp [NUM_GPIO_PINS]; omega), if_pos h]

/-- The mask test in the source, `byte & (1 << k) != 0`, is `testBit`. -/
theorem and_shift_ne_zero (cap k : Nat) :
    (!((cap &&& (1 <<< k)) == 0)) = cap.testBit k := by
  rw [Nat.one_shiftLeft, Nat.and_two_pow]
  cases h : cap.testBit k <;> simp [h]

/-- The write sequencer either performs every write successfully, or stops at
the first failing write having performed exactly the preceding writes. -/
theorem writeSeq_spec (bus : Bus) (l : List (Nat × Nat)) (tr : List Event) :
    writeSeq bus tr l = (Except.ok (), tr ++ okWriteEvents l)
    ∨ (∃ e k, ∃ hk : k < l.length,
        writeSeq bus tr l
          = (Except.error (Error.I2C e),
             tr ++ okWriteEvents (l.take k)
                ++ [Event.writeE (l.get ⟨k, hk⟩).1 (l.get ⟨k, hk⟩).2 (Except.error e)])) := by
  induction l generalizing tr with
  | nil => exact Or.inl (by simp [writeSeq, okWriteEvents])
  | cons rv rest ih =>
    rcases busWrite_cases bus tr rv.1 rv.2 with hw | ⟨e, hw⟩
    · rcases ih (tr ++ [Event.writeE rv.1 rv.2 (Except.ok ())]) with hrec | ⟨e, k, hk, hrec⟩
      · left
        simp only [writeSeq, hw]
        rw [hrec]
        simp [okWriteEvents]
      · right
        refine ⟨e, k + 1, by simpa using Nat.succ_lt_succ hk, ?_⟩
        simp only [writeSeq, hw]
        rw [hrec]
        simp [okWriteEvents, List.take_succ_cons]
    · right
      refine ⟨e, 0, by simp, ?_⟩
      simp only [writeSeq, hw]
      simp [okWriteEvents]

/-- Helper: full characterization of `reset`: on success the trace extension
is exactly the 13 fixed writes followed by the GPIOA and GPIOB reads; on the
first failure the sequence stops at the failing operation. -/
theorem reset_spec_aux (bus : Bus) (tr : List Event) :
    ((MCP23017.reset bus tr).1 = Except.ok ()
      ∧ ∃ a b, (MCP23017.reset bus tr).2
          = tr ++ okWriteEvents resetWritePairs
              ++ [Event.readE GPIOA (Except.ok a), Event.readE GPIOB (Except.ok b)])
    ∨ (∃ e, (MCP23017.reset bus tr).1 = Except.error (Error.I2C e)
        ∧ ((∃ k, ∃ hk : k < resetWritePairs.length,
              (MCP23017.reset bus tr).2
                = tr ++ okWriteEvents (resetWritePairs.take k)
                    ++ [Event.writeE (resetWritePairs.get ⟨k, hk⟩).1
                        (resetWritePairs.get ⟨k, hk⟩).2 (Except.error e)])
          ∨ (MCP23017.reset bus tr).2
              = tr ++ okWriteEvents resetWritePairs ++ [Event.readE GPIOA (Except.error e)]
          ∨ (∃ a, (MCP23017.reset bus tr).2
              = tr ++ okWriteEvents resetWritePairs
                  ++ [Event.readE GPIOA (Except.ok a),
                      Event.readE GPIOB (Except.error e)]))) := by
  unfold MCP23017.reset
  rcases writeSeq_spec bus resetWritePairs tr with hws | ⟨e, k, hk, hws⟩
  · simp only [hws]
    rcases busRead_cases bus (tr ++ okWriteEvents resetWritePairs) GPIOA with
      ⟨a, _, hra⟩ | ⟨e, hra⟩
    · simp only [hra]
      rcases busRead_cases bus
        (tr ++ okWriteEvents resetWritePairs ++ [Event.readE GPIOA (Except.ok a)]) GPIOB with
        ⟨b, _, hrb⟩ | ⟨e, hrb⟩
      · simp only [hrb]
        exact Or.inl ⟨by simp, a, b, by simp⟩
      · simp only [hrb]
        exact Or.inr ⟨e, by simp, Or.inr (Or.inr ⟨a, by simp⟩)⟩
    · simp only [hra]
      exact Or.inr ⟨e, by simp, Or.inr (Or.inl (by simp))⟩
  · simp only [hws]
    exact Or.inr ⟨e, by simp, Or.inl ⟨k, hk, by simp⟩⟩

/-- C1: evaluating `pull_up` at the bank-B pin 8 on an all-zero bus: the
read-modify-write goes to GPPUA — not GPPUB as the claim requires for a
bank-B pin — while the return value is the written byte shifted by 8. -/
theorem pull_up_bankB_hits_GPPUA :
    Pin.new 8 = some pin8
    ∧ pin8.bank = Bank.B
    ∧ MCP23017.pull_up busZero [] pin8 State.High
        = (Except.ok 256,
           [Event.readE GPPUA (Except.ok 0), Event.writeE GPPUA 1 (Except.ok ())])
    ∧ GPPUA ≠ GPPUB := by decide

/-- C2 counterexample: with direction word 0, bit 0 (pin 0's bit) is 0, and
`Pin::mode` returns Input — not Output as the claim states. -/
theorem pin_mode_zero_bit_is_input :
    (0 : Nat).testBit pin0.orig = false
    ∧ pin0.mode 0 = Mode.Input
    ∧ pin0.mode 0 ≠ Mode.Output := by decide

/-- C2 (amended): for every pin `p` and direction word `d`, `Pin::mode` reads
bit `p.orig` of `d` and returns Input when that bit is 0 and Output when it
is 1 (the label sense is inverted relative to the hardware convention). -/
theorem pin_mode_testBit (p : Pin) (d : Nat) :
    p.mode d = (if d.testBit p.orig then Mode.Output else Mode.Input) := by
  rw [Pin.mode, Nat.one_shiftLeft, Nat.and_two_pow]
  cases h : d.testBit p.orig <;> simp [h, Mode.fromBool]

/-- C3 counterexample: on a fully successful bus, `reset` issues 13 register
writes — not 14 — followed by 2 register reads. -/
theorem reset_writes_13_not_14 :
    (MCP23017.reset busZero []).1 = Except.ok ()
    ∧ countWrites (MCP23017.reset busZero []).2 = 13
    ∧ countWrites (MCP23017.reset busZero []).2 ≠ 14
    ∧ countReads (MCP23017.reset busZero []).2 = 2 := by decide

/-- C3 (amended): `reset` issues exactly the 13 fixed-value register writes
of `resetWritePairs` (IODIR=0xFF both banks, then GPIO, GPPU, IOCON, GPINTEN,
INTCON, DEFVAL all 0) followed by exactly 2 register reads (GPIOA then
GPIOB); if any single bus operation fails, no further bus calls are made and
the transport error is returned. -/
theorem reset_sequence_spec (bus : Bus) (tr : List Event) :
    countWrites (okWriteEvents resetWritePairs) = 13
    ∧ countReads (okWriteEvents resetWritePairs) = 0
    ∧ (((MCP23017.reset bus tr).1 = Except.ok ()
        ∧ ∃ a b, (MCP23017.reset bus tr).2
            = tr ++ okWriteEvents resetWritePairs
                ++ [Event.readE GPIOA (Except.ok a), Event.readE GPIOB (Except.ok b)])
      ∨ (∃ e, (MCP23017.reset bus tr).1 = Except.error (Error.I2C e)
          ∧ ((∃ k, ∃ hk : k < resetWritePairs.length,
                (MCP23017.reset bus tr).2
                  = tr ++ okWriteEvents (resetWritePairs.take k)
                      ++ [Event.writeE (resetWritePairs.get ⟨k, hk⟩).1
                          (resetWritePairs.get ⟨k, hk⟩).2 (Except.error e)])
            ∨ (MCP23017.reset bus tr).2
                = tr ++ okWriteEvents resetWritePairs ++ [Event.readE GPIOA (Except.error e)]
            ∨ (∃ a, (MCP23017.reset bus tr).2
                = tr ++ okWriteEvents resetWritePairs
                    ++ [Event.readE GPIOA (Except.ok a),
                        Event.readE GPIOB (Except.error e)])))) :=
  ⟨by decide, by decide, reset_spec_aux bus tr⟩

/-- C4: evaluating `clear_interrupts` on a bus whose INTF registers are stuck
non-zero: after the entry check (one INTFA read), the retry loop probes the
(INTFA, INTFB) pair exactly ONCE — not three times — and the forced clear
(GPIOA and GPIOB reads) follows immediately, returning
InterruptsForcedClear.  5 reads in total. -/
theorem clear_interrupts_single_retry :
    MCP23017.clear_interrupts busStuck []
      = (Except.error Error.InterruptsForcedClear,
         [Event.readE INTFA (Except.ok 1), Event.readE INTFA (Except.ok 1),
          Event.readE INTFB (Except.ok 1), Event.readE GPIOA (Except.ok 0),
          Event.readE GPIOB (Except.ok 0)])
    ∧ countReads (MCP23017.clear_interrupts busStuck []).2 = 5 := by decide

/-- C10 counterexample: on a bus whose IODIR registers read 0 before the
reset, `new` succeeds (the full reset runs) but the cached direction word is
0, not 0xFFFF. -/
theorem new_direction_not_FFFF :
    (MCP23017.new busZero []).1 = Except.ok dev0
    ∧ dev0.direction ≠ 0xFFFF := by decide

/-- C10 (amended): after a successful `new`, the cached direction word is the
IODIRA byte (low half) combined with the IODIRB byte (high half) as read
BEFORE the reset; the reset that follows does not update the cache, so the
word is 0xFFFF only if the hardware already read back 0xFF on both banks. -/
theorem new_direction_from_prereset_reads (bus : Bus) (tr : List Event)
    (dev : MCP23017) (h : (MCP23017.new bus tr).1 = Except.ok dev) :
    ∃ a b l, a < 256 ∧ b < 256
      ∧ (MCP23017.new bus tr).2
          = tr ++ [Event.readE IODIRA (Except.ok a), Event.readE IODIRB (Except.ok b)] ++ l
      ∧ dev.direction = a ||| (b <<< 8)
      ∧ dev.mirrored = Feature.Off := by
  unfold MCP23017.new at h ⊢
  rcases busRead_cases bus tr IODIRA with ⟨a, ha, hra⟩ | ⟨e, hra⟩
  · simp only [hra] at h ⊢
    rcases busRead_cases bus (tr ++ [Event.readE IODIRA (Except.ok a)]) IODIRB with
      ⟨b, hb, hrb⟩ | ⟨e, hrb⟩
    · simp only [hrb] at h ⊢
      rcases hr : MCP23017.reset bus
          (tr ++ [Event.readE IODIRA (Except.ok a)] ++ [Event.readE IODIRB (Except.ok b)]) with
        ⟨res, tr3⟩
      simp only [hr] at h ⊢
      cases res with
      | error e => simp at h
      | ok u =>
        have hdev : dev = ⟨a ||| (b <<< 8), Feature.Off⟩ := by
          simp only [] at h
          injection h with h1
          exact h1.symm
        rcases reset_spec_aux bus
            (tr ++ [Event.readE IODIRA (Except.ok a)] ++ [Event.readE IODIRB (Except.ok b)]) with
          ⟨_, a2, b2, htr⟩ | ⟨e2, herr, _⟩
        · rw [hr] at htr
          refine ⟨a, b, okWriteEvents resetWritePairs
              ++ [Event.readE GPIOA (Except.ok a2), Event.readE GPIOB (Except.ok b2)],
            ha, hb, ?_, by rw [hdev], by rw [hdev]⟩
          rw [htr]
          simp
        · rw [hr] at herr
          simp at herr
    · simp [hrb] at h
  · simp [hra] at h

/-- Helper: `read_and_change_pin` only ever yields a byte or a transport
error (never a WrongMode error). -/
theorem read_and_change_pin_shape (bus : Bus) (tr : List Event) (register : Nat)
    (p : Pin) (v : Bool) (cur : Option Nat) :
    (∃ b, (MCP23017.read_and_change_pin bus tr register p v cur).1 = Except.ok b)
    ∨ (∃ e, (MCP23017.read_and_change_pin bus tr register p v cur).1
        = Except.error (Error.I2C e)) := by
  unfold MCP23017.read_and_change_pin
  cases cur with
  | some c =>
    rcases busWrite_cases bus tr register (MCP23017.change_bit c p v) with hw | ⟨e, hw⟩
    · exact Or.inl ⟨MCP23017.change_bit c p v, by simp [hw]⟩
    · exact Or.inr ⟨e, by simp [hw]⟩
  | none =>
    rcases busRead_cases bus tr register with ⟨a, _, hr⟩ | ⟨e, hr⟩
    · rcases busWrite_cases bus (tr ++ [Event.readE register (Except.ok a)]) register
          (MCP23017.change_bit a p v) with hw | ⟨e, hw⟩
      · exact Or.inl ⟨MCP23017.change_bit a p v, by simp [hr, hw]⟩
      · exact Or.inr ⟨e, by simp [hr, hw]⟩
    · exact Or.inr ⟨e, by simp [hr]⟩

/-- Helper: when `read_and_change_pin` succeeds with byte `b`, a successful
write of `b` to the register is in its trace. -/
theorem read_and_change_pin_ok_mem (bus : Bus) (tr : List Event) (register : Nat)
    (p : Pin) (v : Bool) (cur : Option Nat) (b : Nat)
    (h : (MCP23017.read_and_change_pin bus tr register p v cur).1 = Except.ok b) :
    Event.writeE register b (Except.ok ())
      ∈ (MCP23017.read_and_change_pin bus tr register p v cur).2 := by
  unfold MCP23017.read_and_change_pin at h ⊢
  cases cur with
  | some c =>
    rcases busWrite_cases bus tr register (MCP23017.change_bit c p v) with hw | ⟨e, hw⟩
    · simp only [hw, Except.ok.injEq] at h
      subst h
      simp [hw]
    · simp [hw] at h
  | none =>
    rcases busRead_cases bus tr register with ⟨a, _, hr⟩ | ⟨e, hr⟩
    · rcases busWrite_cases bus (tr ++ [Event.readE register (Except.ok a)]) register
          (MCP23017.change_bit a p v) with hw | ⟨e, hw⟩
      · simp only [hr, hw, Except.ok.injEq] at h
        subst h
        simp [hr, hw]
      · simp [hr, hw] at h
    · simp [hr] at h

/-- C7: with a supplied current byte, `read_and_change_pin` issues zero reads
and exactly one write, of the byte `change_bit cur p v` (also the returned
byte), which differs from `cur` only at bit `p.pin` (set to `v`); with no
supplied byte, a successful call issues exactly one read followed by the one
write. -/
theorem read_and_change_pin_rmw_spec (bus : Bus) (tr : List Event) (register : Nat)
    (p : Pin) (v : Bool) (cur : Nat) (hp : p.pin < 8) (hc : cur < 256) :
    (∃ res, (MCP23017.read_and_change_pin bus tr register p v (some cur)).2
        = tr ++ [Event.writeE register (MCP23017.change_bit cur p v) res])
    ∧ countReads ((MCP23017.read_and_change_pin bus tr register p v (some cur)).2.drop
        tr.length) = 0
    ∧ countWrites ((MCP23017.read_and_change_pin bus tr register p v (some cur)).2.drop
        tr.length) = 1
    ∧ (∀ b, (MCP23017.read_and_change_pin bus tr register p v (some cur)).1 = Except.ok b →
        b = MCP23017.change_bit cur p v
        ∧ b.testBit p.pin = v
        ∧ ∀ j, j ≠ p.pin → b.testBit j = cur.testBit j)
    ∧ (∀ b, (MCP23017.read_and_change_pin bus tr register p v none).1 = Except.ok b →
        ∃ a, a < 256
          ∧ (MCP23017.read_and_change_pin bus tr register p v none).2
              = tr ++ [Event.readE register (Except.ok a),
                       Event.writeE register b (Except.ok ())]
          ∧ b = MCP23017.change_bit a p v
          ∧ b.testBit p.pin = v
          ∧ ∀ j, j ≠ p.pin → b.testBit j = a.testBit j) := by
  have hnone : ∀ b, (MCP23017.read_and_change_pin bus tr register p v none).1 = Except.ok b →
      ∃ a, a < 256
        ∧ (MCP23017.read_and_change_pin bus tr register p v none).2
            = tr ++ [Event.readE register (Except.ok a),
                     Event.writeE register b (Except.ok ())]
        ∧ b = MCP23017.change_bit a p v
        ∧ b.testBit p.pin = v
        ∧ ∀ j, j ≠ p.pin → b.testBit j = a.testBit j := by
    intro b hb
    unfold MCP23017.read_and_change_pin at hb ⊢
    rcases busRead_cases bus tr register with ⟨a, ha, hr⟩ | ⟨e, hr⟩
    · rcases busWrite_cases bus (tr ++ [Event.readE register (Except.ok a)]) register
          (MCP23017.change_bit a p v) with hw | ⟨e, hw⟩
      · simp only [hr, hw, Except.ok.injEq] at hb
        subst hb
        exact ⟨a, ha, by simp [hr, hw],
          rfl, change_bit_testBit_self ha hp, fun j hj => change_bit_testBit_other ha hp hj⟩
      · simp [hr, hw] at hb
    · simp [hr] at hb
  rcases busWrite_cases bus tr register (MCP23017.change_bit cur p v) with hw | ⟨e, hw⟩
  · refine ⟨⟨Except.ok (), by unfold MCP23017.read_and_change_pin; simp [hw]⟩, ?_, ?_, ?_, hnone⟩
    · unfold MCP23017.read_and_change_pin
      simp [hw, List.drop_left, countReads]
    · unfold MCP23017.read_and_change_pin
      simp [hw, List.drop_left, countWrites]
    · intro b hb
      unfold MCP23017.read_and_change_pin at hb
      simp only [hw, Except.ok.injEq] at hb
      subst hb
      exact ⟨rfl, change_bit_testBit_self hc hp, fun j hj => change_bit_testBit_other hc hp hj⟩
  · refine ⟨⟨Except.error e, by unfold MCP23017.read_and_change_pin; simp [hw]⟩, ?_, ?_, ?_, hnone⟩
    · unfold MCP23017.read_and_change_pin
      simp [hw, List.drop_left, countReads]
    · unfold MCP23017.read_and_change_pin
      simp [hw, List.drop_left, countWrites]
    · intro b hb
      unfold MCP23017.read_and_change_pin at hb
      simp [hw] at hb

/-- C5: `output` returns the WrongMode error carrying the pin, with no bus
operation performed, exactly when the cached-direction mode of the pin is
Output; when the mode is Input the guard passes and the GPIO write path runs
(on success a write of the returned byte to the bank's GPIO register is in
the trace). -/
theorem output_wrong_mode_guard (bus : Bus) (self : MCP23017) (tr : List Event)
    (p : Pin) (v : State) :
    (MCP23017.output bus self tr p v = (Except.error (Error.WrongMode p), tr)
      ↔ p.mode self.direction = Mode.Output)
    ∧ (p.mode self.direction = Mode.Input →
        ∀ b, (MCP23017.output bus self tr p v).1 = Except.ok b →
          Event.writeE (gpioReg p.bank) b (Except.ok ())
            ∈ (MCP23017.output bus self tr p v).2) := by
  cases hm : p.mode self.direction with
  | Output =>
    refine ⟨⟨fun _ => rfl, fun _ => ?_⟩, fun hin => ?_⟩
    · unfold MCP23017.output
      rw [if_pos hm]
    · exact absurd hin (by decide)
  | Input =>
    have heq : MCP23017.output bus self tr p v
        = match p.bank with
          | Bank.A => MCP23017.read_and_change_pin bus (busRead bus tr OLATA).2 GPIOA p
              v.toBool (busRead bus tr OLATA).1.toOption
          | Bank.B => MCP23017.read_and_change_pin bus (busRead bus tr OLATB).2 GPIOB p
              v.toBool (busRead bus tr OLATB).1.toOption := by
      unfold MCP23017.output
      rw [if_neg (by simp [hm])]
    constructor
    · constructor
      · intro habs
        exfalso
        cases hbk : p.bank with
        | A =>
          rcases read_and_change_pin_shape bus (busRead bus tr OLATA).2 GPIOA p v.toBool
              (busRead bus tr OLATA).1.toOption with ⟨b, hb⟩ | ⟨e, hb⟩
          · simp only [heq, hbk] at habs
            have hfst := congrArg Prod.fst habs
            rw [hb] at hfst
            simp at hfst
          · simp only [heq, hbk] at habs
            have hfst := congrArg Prod.fst habs
            rw [hb] at hfst
            simp at hfst
        | B =>
          rcases read_and_change_pin_shape bus (busRead bus tr OLATB).2 GPIOB p v.toBool
              (busRead bus tr OLATB).1.toOption with ⟨b, hb⟩ | ⟨e, hb⟩
          · simp only [heq, hbk] at habs
            have hfst := congrArg Prod.fst habs
            rw [hb] at hfst
            simp at hfst
          · simp only [heq, hbk] at habs
            have hfst := congrArg Prod.fst habs
            rw [hb] at hfst
            simp at hfst
      · intro hout
        exact absurd hout (by decide)
    · intro _ b hb
      cases hbk : p.bank with
      | A =>
        simp only [heq, hbk] at hb ⊢
        simp only [gpioReg]
        exact read_and_change_pin_ok_mem bus (busRead bus tr OLATA).2 GPIOA p v.toBool
          (busRead bus tr OLATA).1.toOption b hb
      | B =>
        simp only [heq, hbk] at hb ⊢
        simp only [gpioReg]
        exact read_and_change_pin_ok_mem bus (busRead bus tr OLATB).2 GPIOB p v.toBool
          (busRead bus tr OLATB).1.toOption b hb

/-- C6: with the cached mirror flag On, `read_interrupt` checks bank A first
whatever bank was requested; a bank-A hit or error is returned as-is, and
when bank A reports nothing, bank B's answer is used with its transport
errors suppressed into "no interrupt" (an Ok result).  With the flag Off,
only the requested bank is consulted and its errors propagate. -/
theorem read_interrupt_mirror_spec (bus : Bus) (self : MCP23017) (tr : List Event)
    (port : Bank) :
    (self.mirrored = Feature.Off →
      MCP23017.read_interrupt bus self tr port = MCP23017.read_interrupt_register bus tr port)
    ∧ (self.mirrored = Feature.On →
        MCP23017.read_interrupt bus self tr port = MCP23017.read_interrupt bus self tr Bank.A
        ∧ (∀ pv tr1,
            MCP23017.read_interrupt_register bus tr Bank.A = (Except.ok (some pv), tr1) →
            MCP23017.read_interrupt bus self tr port = (Except.ok (some pv), tr1))
        ∧ (∀ e tr1, MCP23017.read_interrupt_register bus tr Bank.A = (Except.error e, tr1) →
            MCP23017.read_interrupt bus self tr port = (Except.error e, tr1))
        ∧ (∀ tr1, MCP23017.read_interrupt_register bus tr Bank.A = (Except.ok none, tr1) →
            (∀ st tr2,
              MCP23017.read_interrupt_register bus tr1 Bank.B = (Except.ok st, tr2) →
              MCP23017.read_interrupt bus self tr port = (Except.ok st, tr2))
            ∧ (∀ e tr2,
              MCP23017.read_interrupt_register bus tr1 Bank.B = (Except.error e, tr2) →
              MCP23017.read_interrupt bus self tr port = (Except.ok none, tr2)))) := by
  constructor
  · intro hm
    simp only [MCP23017.read_interrupt, hm]
  · intro hm
    refine ⟨by simp only [MCP23017.read_interrupt, hm], ?_, ?_, ?_⟩
    · intro pv tr1 hA
      simp only [MCP23017.read_interrupt, hm, hA]
    · intro e tr1 hA
      simp only [MCP23017.read_interrupt, hm, hA]
    · intro tr1 hA
      constructor
      · intro st tr2 hB
        simp only [MCP23017.read_interrupt, hm, hA, hB]
      · intro e tr2 hB
        simp only [MCP23017.read_interrupt, hm, hA, hB]

/-- C8: for each bank, a zero INTF byte yields success with no pending
interrupt and no INTCAP read; a non-zero INTF byte names the pin bit via
floor(log2) — the highest set bit, so simultaneous interrupts collapse to
the highest-numbered pin of the bank — and the returned State is that pin's
bit extracted from the bank's INTCAP byte. -/
theorem read_interrupt_register_spec (bus : Bus) (tr : List Event) (port : Bank) :
    (∀ tr1, busRead bus tr (intfReg port) = (Except.ok 0, tr1) →
      MCP23017.read_interrupt_register bus tr port = (Except.ok none, tr1))
    ∧ (∀ v tr1 cap tr2, busRead bus tr (intfReg port) = (Except.ok v, tr1) → v ≠ 0 →
        busRead bus tr1 (intcapReg port) = (Except.ok cap, tr2) →
        MCP23017.read_interrupt_register bus tr port
            = (Except.ok (some (⟨Nat.log2 v, Nat.log2 v, 0, Bank.A⟩,
               State.fromBool (cap.testBit (Nat.log2 v)))), tr2)
          ∧ Pin.new (Nat.log2 v) = some ⟨Nat.log2 v, Nat.log2 v, 0, Bank.A⟩
          ∧ v.testBit (Nat.log2 v) = true
          ∧ ∀ j, Nat.log2 v < j → v.testBit j = false) := by
  constructor
  · intro tr1 h
    cases port with
    | A =>
      simp only [intfReg] at h
      unfold MCP23017.read_interrupt_register
      simp only [h]
      simp
    | B =>
      simp only [intfReg] at h
      unfold MCP23017.read_interrupt_register
      simp only [h]
      simp
  · intro v tr1 cap tr2 hv hvne hcap
    have hv256 : v < 256 := busRead_ok_lt hv
    have hl8 : Nat.log2 v < 8 := log2_lt_8 hv256
    have hpin := pin_new_small hl8
    refine ⟨?_, hpin, log2_testBit_self hvne, fun j hj => log2_testBit_gt hj⟩
    cases port with
    | A =>
      simp only [intfReg] at hv
      simp only [intcapReg] at hcap
      unfold MCP23017.read_interrupt_register
      simp only [hv]
      rw [if_pos hvne]
      simp only [hcap, hpin]
      simp [and_shift_ne_zero]
    | B =>
      simp only [intfReg] at hv
      simp only [intcapReg] at hcap
      unfold MCP23017.read_interrupt_register
      simp only [hv]
      rw [if_pos hvne]
      simp only [hcap, hpin]
      simp [and_shift_ne_zero]

/-- C8 witness: the spec scenario INTFA = 0x04, INTCAPA = 0x04 reports pin 2
of bank A captured High, with the INTFA and INTCAPA reads in the trace. -/
theorem read_interrupt_register_spec_witness :
    MCP23017.read_interrupt_register busIntf4 [] Bank.A
      = (Except.ok (some (⟨2, 2, 0, Bank.A⟩, State.High)),
         [Event.readE INTFA (Except.ok 4), Event.readE INTCAPA (Except.ok 4)]) := by
  have h := (read_interrupt_register_spec busIntf4 [] Bank.A).2 4
    [Event.readE INTFA (Except.ok 4)] 4
    [Event.readE INTFA (Except.ok 4), Event.readE INTCAPA (Except.ok 4)]
    (by decide) (by decide) (by decide)
  have h1 := h.1
  rw [log2_four] at h1
  have h2 : State.fromBool ((4 : Nat).testBit 2) = State.High := by decide
  rw [h2] at h1
  exact h1

/-- C9: any interrupt reported by `read_interrupt_register` on bank B carries
a pin built by `Pin::new` from floor(log2(INTFB)), a value below 8 — so the
pin is a bank-A pin with logical index below 8, never a pin 8-15. -/
theorem read_interrupt_register_bankB_misbank (bus : Bus) (tr : List Event)
    (pv : Pin × State) (tr2 : List Event)
    (h : MCP23017.read_interrupt_register bus tr Bank.B = (Except.ok (some pv), tr2)) :
    pv.1.bank = Bank.A ∧ pv.1.orig < 8 ∧ pv.1.shift = 0 ∧ pv.1.pin < 8 := by
  unfold MCP23017.read_interrupt_register at h
  rcases busRead_cases bus tr INTFB with ⟨v, hv, hrv⟩ | ⟨e, hrv⟩
  · simp only [hrv] at h
    by_cases hz : v = 0
    · subst hz
      simp at h
    · rw [if_pos hz] at h
      rcases busRead_cases bus (tr ++ [Event.readE INTFB (Except.ok v)]) INTCAPB with
        ⟨cap, hcap, hrc⟩ | ⟨e, hrc⟩
      · have hl8 : Nat.log2 v < 8 := log2_lt_8 hv
        simp only [hrc, pin_new_small hl8, Option.map] at h
        have hfst := congrArg Prod.fst h
        simp only [Except.ok.injEq, Option.some.injEq] at hfst
        rw [← hfst]
        exact ⟨rfl, hl8, rfl, hl8⟩
      · simp [hrc] at h
  · simp [hrv] at h

/-- C9 witness: with INTFB = 0x80 (pin 15 of the chip), the reported pin is
the bank-A pin with logical index 7. -/
theorem read_interrupt_register_bankB_misbank_witness :
    ((⟨7, 7, 0, Bank.A⟩, State.High) : Pin × State).1.bank = Bank.A
    ∧ ((⟨7, 7, 0, Bank.A⟩, State.High) : Pin × State).1.orig < 8
    ∧ ((⟨7, 7, 0, Bank.A⟩, State.High) : Pin × State).1.shift = 0
    ∧ ((⟨7, 7, 0, Bank.A⟩, State.High) : Pin × State).1.pin < 8 := by
  have h128 : MCP23017.read_interrupt_register busIntfB128 [] Bank.B
      = (Except.ok (some (⟨7, 7, 0, Bank.A⟩, State.High)),
         [Event.readE INTFB (Except.ok 128), Event.readE INTCAPB (Except.ok 128)]) := by
    have h1 : busRead busIntfB128 [] INTFB
        = (Except.ok 128, [Event.readE INTFB (Except.ok 128)]) := by decide
    have h2 : busRead busIntfB128 [Event.readE INTFB (Except.ok 128)] INTCAPB
        = (Except.ok 128,
           [Event.readE INTFB (Except.ok 128), Event.readE INTCAPB (Except.ok 128)]) := by
      decide
    have hl : Nat.log2 128 < 8 := by rw [log2_128]; omega
    unfold MCP23017.read_interrupt_register
    simp only [h1]
    rw [if_pos (by decide : (128 : Nat) ≠ 0)]
    simp only [h2, pin_new_small hl, Option.map, log2_128]
    decide
  exact read_interrupt_register_bankB_misbank busIntfB128 [] _ _ h128

/-- C5 witness: pin 0 with direction word 0 has (per the code's mode
labelling) mode Input, the guard passes and the successful GPIO write is in
the trace; with direction word 0xFFFF the mode is Output and the call is
rejected with WrongMode and an empty trace. -/
theorem output_wrong_mode_guard_witness :
    Event.writeE (gpioReg pin0.bank) 1 (Except.ok ())
      ∈ (MCP23017.output busZero dev0 [] pin0 State.High).2
    ∧ MCP23017.output busZero devFFFF [] pin0 State.High
        = (Except.error (Error.WrongMode pin0), []) := by
  constructor
  · exact (output_wrong_mode_guard busZero dev0 [] pin0 State.High).2 (by decide) 1 (by decide)
  · exact (output_wrong_mode_guard busZero devFFFF [] pin0 State.High).1.mpr (by decide)

/-- C6 witness: with mirroring on and a bus where INTFA reads 0 but reading
INTFB fails, the bank-B transport error is swallowed: the overall result is
Ok with no interrupt. -/
theorem read_interrupt_mirror_spec_witness :
    MCP23017.read_interrupt busBerr devMir [] Bank.B
      = (Except.ok none,
         [Event.readE INTFA (Except.ok 0), Event.readE INTFB (Except.error 9)]) :=
  (((read_interrupt_mirror_spec busBerr devMir [] Bank.B).2 (by decide)).2.2.2
    [Event.readE INTFA (Except.ok 0)] (by decide)).2 (Error.I2C 9)
    [Event.readE INTFA (Except.ok 0), Event.readE INTFB (Except.error 9)] (by decide)

/-- C7 witness: with known current byte 0 at pin 0, the trace extension has
zero reads and exactly one write. -/
theorem read_and_change_pin_rmw_spec_witness :
    countReads ((MCP23017.read_and_change_pin busZero [] GPPUA pin0 true (some 0)).2.drop
      (List.length ([] : List Event))) = 0
    ∧ countWrites ((MCP23017.read_and_change_pin busZero [] GPPUA pin0 true (some 0)).2.drop
      (List.length ([] : List Event))) = 1 :=
  ⟨(read_and_change_pin_rmw_spec busZero [] GPPUA pin0 true 0 (by decide) (by decide)).2.1,
   (read_and_change_pin_rmw_spec busZero [] GPPUA pin0 true 0 (by decide) (by decide)).2.2.1⟩

/-- C10 witness: instantiated at the all-zero bus, where the pre-reset IODIR
reads are 0 and the cached direction word is 0. -/
theorem new_direction_from_prereset_reads_witness :
    ∃ a b l, a < 256 ∧ b < 256
      ∧ (MCP23017.new busZero []).2
          = [] ++ [Event.readE IODIRA (Except.ok a), Event.readE IODIRB (Except.ok b)] ++ l
      ∧ dev0.direction = a ||| (b <<< 8)
      ∧ dev0.mirrored = Feature.Off :=
  new_direction_from_prereset_reads busZero [] dev0 (by decide)

end MCP
